import Mathlib

/-!
Verification of the neighbor-graph pipeline (`code/metrics/neighbor.py`).

The development is a shallow embedding of the pipeline: pandas/JSON scalar
values become an inductive `Value` type, records of the loaded dataframe
become the `Record` structure, the three similarity kernels become explicit
matrix-building functions over `ℝ` (floating point is modelled by the real
numbers), and the imperative symmetric-fill loops become folds over the
index pairs `(i, j)` with `i ≤ j`.  The statements at the end verify the
behaviour of the top-K neighbor construction, the min-max normalisation,
the temporal kernel, the gazetteer backfill and the field-normalisation
helpers against the source.
-/

/-- An n-by-n float matrix, as in the numpy arrays of the source; entries
outside the `n × n` block are irrelevant and never read. -/
def Mat : Type := ℕ → ℕ → ℝ

/-- A Python/pandas scalar or container value as it appears in the raw
metadata JSON: `None`, float `NaN` (from pandas), strings, numbers, lists
and (string-keyed) dicts. -/
inductive Value where
  | null
  | nan
  | str (s : String)
  | num (q : ℚ)
  | list (items : List Value)
  | dict (entries : List (String × Value))

mutual

/-- Total stand-in for Python `str()`.  The exact rendering of non-string
values is irrelevant to every property below; what matters is that `str()`
always yields a string. -/
def pyStr : Value → String
  | .null => "None"
  | .nan => "nan"
  | .str s => s
  | .num q => toString q
  | .list l => "[" ++ String.intercalate ", " (pyStrList l) ++ "]"
  | .dict d => "[" ++ String.intercalate ", " (pyStrAssoc d) ++ "]"

def pyStrList : List Value → List String
  | [] => []
  | v :: vs => pyStr v :: pyStrList vs

def pyStrAssoc : List (String × Value) → List String
  | [] => []
  | (k, v) :: vs => (k ++ ": " ++ pyStr v) :: pyStrAssoc vs

end

/-- Python truthiness of a value (`if item:`): `None`, `''`, `0`, `[]` and
empty dicts are falsy; note that float `NaN` is truthy in Python. -/
def pyTruthy : Value → Bool
  | .null => false
  | .nan => true
  | .str s => !s.isEmpty
  | .num q => q != 0
  | .list l => !l.isEmpty
  | .dict d => !d.isEmpty

/-- `pd.isna` applied to a single value: `True` for `None`/`NaN`, `False`
for other scalars and dicts; on a list it returns an array, whose use in
an `if` raises (modelled by `Except.error`, caught by the wrapper). -/
def pdIsnaScalar : Value → Except Unit Bool
  | .null => .ok true
  | .nan => .ok true
  | .list _ => .error ()
  | _ => .ok false

/-- The `handle_scalar_values` decorator: `None` maps to `''`, then
`pd.isna` is tried — a `True` result maps to `''`, a raised
`ValueError`/`TypeError` is swallowed and the wrapped function runs. -/
def handle_scalar_values (f : Value → Value) : Value → Value := fun v =>
  match v with
  | .null => .str ""
  | w =>
    match pdIsnaScalar w with
    | .ok true => .str ""
    | _ => f w

/-- `' '.join(str(item) for item in l if item)`. -/
def joinTruthy (l : List Value) : String :=
  String.intercalate " " ((l.filter pyTruthy).map pyStr)

/-- The language-preference scan of the dict branch of
`extract_text_field`: first of `en`, `fr`, `de` that is present and
truthy. -/
def firstLangValue (d : List (String × Value)) : Option Value :=
  ["en", "fr", "de"].findSome? fun lang =>
    match d.lookup lang with
    | some v => if pyTruthy v then some v else Option.none
    | Option.none => Option.none

/-- Body of `extract_text_field` (before the decorator). -/
def extract_text_field_core : Value → Value
  | .str s => .str s
  | .list l => .str (joinTruthy l)
  | .dict d =>
    match firstLangValue d with
    | some (.list l) => .str (joinTruthy l)
    | some v => .str (pyStr v)
    | Option.none =>
      let vals := ((d.map Prod.snd).filter pyTruthy).map pyStr
      .str (if vals.isEmpty then "" else String.intercalate " " vals)
  | v => .str (pyStr v)

/-- `extract_text_field`, decorator included. -/
def extract_text_field : Value → Value :=
  handle_scalar_values extract_text_field_core

/-- `place_label == 'Unknown'` (a Python `==` against the string). -/
def isUnknownStr : Value → Bool
  | .str s => s == "Unknown"
  | _ => false

/-- `next(iter(place_label.values()), 'Unknown')`. -/
def dictFirstValue : List (String × Value) → Value
  | [] => .str "Unknown"
  | (_, v) :: _ => v

/-- Body of `extract_place_name` (before the decorator). -/
def extract_place_name_core : Value → Value
  | .str s => .str s
  | .list l => .str (match l with | [] => "" | x :: _ => pyStr x)
  | .dict d =>
    let p0 := d.lookup "en"
    let p1 : Value :=
      match p0 with
      | some v => if pyTruthy v && !isUnknownStr v then v else dictFirstValue d
      | Option.none => dictFirstValue d
    .str (if pyTruthy p1 then pyStr p1 else "")
  | v => .str (pyStr v)

/-- `extract_place_name`, decorator included. -/
def extract_place_name : Value → Value :=
  handle_scalar_values extract_place_name_core

/-- One row of the preprocessed dataframe (after the `extract_*` and date
coercions of the loader): text fields are plain strings, `year` and the
two dates are nullable integers (only the `.year` component of the parsed
timestamps is ever consumed, so the dates are stored as their year), and
the coordinates are nullable floats. -/
structure Record where
  id : String
  title : String
  description : String
  concepts : String
  place_label : String
  year : Option ℤ
  date_begin : Option ℤ
  date_end : Option ℤ
  place_lat : Option ℝ
  place_lon : Option ℝ
  country : String
  collection : String

/-- Placeholder row for out-of-range positional access (never reached on
indices below the corpus length). -/
def emptyRecord : Record :=
  ⟨"", "", "", "", "", Option.none, Option.none, Option.none,
    Option.none, Option.none, "", ""⟩

/-- `df.loc[i]` / `df.iloc[i]` positional row access. -/
def getRec (rows : List Record) (i : ℕ) : Record :=
  rows.getD i emptyRecord

/-- The gazetteer: place name to an entry with optional `place_lat` /
`place_lon` keys (`gaz_entry.get(...)` yields `None` for a missing key). -/
def Gazetteer : Type := List (String × (Option ℝ × Option ℝ))

/-- The coordinate backfill loop body for one row: rows with both
coordinates present are skipped; otherwise, when the place label is truthy
and matches a gazetteer key, both coordinate fields are assigned from the
gazetteer entry. -/
def backfill (gaz : Gazetteer) (r : Record) : Record :=
  if r.place_lat.isSome && r.place_lon.isSome then r
  else if r.place_label = "" then r
  else
    match gaz.lookup r.place_label with
    | some e =>
      ⟨r.id, r.title, r.description, r.concepts, r.place_label,
        r.year, r.date_begin, r.date_end, e.1, e.2, r.country, r.collection⟩
    | Option.none => r

/-- A character matched by the `\w` of the vectorizer's token pattern. -/
def isWordChar (c : Char) : Bool := c.isAlphanum || c == '_'

/-- Split a character list into maximal runs of word characters
(accumulator holds the current run, reversed). -/
def splitRuns : List Char → List Char → List (List Char)
  | [], acc => if acc.isEmpty then [] else [acc.reverse]
  | c :: rest, acc =>
    if isWordChar c then splitRuns rest (c :: acc)
    else if acc.isEmpty then splitRuns rest []
    else acc.reverse :: splitRuns rest []

/-- The vectorizer's analyzer up to stop-word removal: lowercase, then the
token pattern `\w\w+` (maximal word-character runs of length at least 2). -/
def tokenize (s : String) : List String :=
  ((splitRuns (s.data.map Char.toLower) []).filter (fun t => 2 ≤ t.length)).map
    fun t => String.mk t

/-- The vectorizer's built-in English stop-word list
(`stop_words='english'`). -/
def english_stop_words : List String :=
  ["a", "about", "above", "across", "after", "afterwards", "again",
   "against", "all", "almost", "alone", "along", "already", "also",
   "although", "always", "am", "among", "amongst", "amoungst", "amount",
   "an", "and", "another", "any", "anyhow", "anyone", "anything", "anyway",
   "anywhere", "are", "around", "as", "at", "back", "be", "became",
   "because", "become", "becomes", "becoming", "been", "before",
   "beforehand", "behind", "being", "below", "beside", "besides",
   "between", "beyond", "bill", "both", "bottom", "but", "by", "call",
   "can", "cannot", "cant", "co", "con", "could", "couldnt", "cry", "de",
   "describe", "detail", "do", "done", "down", "due", "during", "each",
   "eg", "eight", "either", "eleven", "else", "elsewhere", "empty",
   "enough", "etc", "even", "ever", "every", "everyone", "everything",
   "everywhere", "except", "few", "fifteen", "fifty", "fill", "find",
   "fire", "first", "five", "for", "former", "formerly", "forty", "found",
   "four", "from", "front", "full", "further", "get", "give", "go", "had",
   "has", "hasnt", "have", "he", "hence", "her", "here", "hereafter",
   "hereby", "herein", "hereupon", "hers", "herself", "him", "himself",
   "his", "how", "however", "hundred", "i", "ie", "if", "in", "inc",
   "indeed", "interest", "into", "is", "it", "its", "itself", "keep",
   "last", "latter", "latterly", "least", "less", "ltd", "made", "many",
   "may", "me", "meanwhile", "might", "mill", "mine", "more", "moreover",
   "most", "mostly", "move", "much", "must", "my", "myself", "name",
   "namely", "neither", "never", "nevertheless", "next", "nine", "no",
   "nobody", "none", "noone", "nor", "not", "nothing", "now", "nowhere",
   "of", "off", "often", "on", "once", "one", "only", "onto", "or",
   "other", "others", "otherwise", "our", "ours", "ourselves", "out",
   "over", "own", "part", "per", "perhaps", "please", "put", "rather",
   "re", "same", "see", "seem", "seemed", "seeming", "seems", "serious",
   "several", "she", "should", "show", "side", "since", "sincere", "six",
   "sixty", "so", "some", "somehow", "someone", "something", "sometime",
   "sometimes", "somewhere", "still", "such", "system", "take", "ten",
   "than", "that", "the", "their", "them", "themselves", "then", "thence",
   "there", "thereafter", "thereby", "therefore", "therein", "thereupon",
   "these", "they", "thick", "thin", "third", "this", "those", "though",
   "three", "through", "throughout", "thru", "thus", "to", "together",
   "too", "top", "toward", "towards", "twelve", "twenty", "two", "un",
   "under", "until", "up", "upon", "us", "very", "via", "was", "we",
   "well", "were", "what", "whatever", "when", "whence", "whenever",
   "where", "whereafter", "whereas", "whereby", "wherein", "whereupon",
   "whether", "which", "while", "whither", "who", "whoever", "whole",
   "whom", "whose", "why", "will", "with", "within", "without", "would",
   "yet", "you", "your", "yours", "yourself", "yourselves"]

/-- The full analyzer: tokens of a text blob with stop words removed. -/
def analyze (s : String) : List String :=
  (tokenize s).filter fun t => !(english_stop_words.contains t)

/-- The text blob of a record
(`title + ' ' + concepts + ' ' + description + ' ' + place_label`),
analyzed. -/
def docTokens (r : Record) : List String :=
  analyze (r.title ++ " " ++ r.concepts ++ " " ++ r.description ++ " " ++
    r.place_label)

/-- Document frequency of a term. -/
def termDf (docs : List (List String)) (t : String) : ℕ :=
  docs.countP fun d => d.contains t

/-- Candidate vocabulary, in first-occurrence order.  (The source orders
the vocabulary alphabetically; the column order does not affect any
similarity value.) -/
def allTerms (docs : List (List String)) : List String :=
  docs.flatten.dedup

def max_features : ℕ := 5000

/-- Vocabulary for a given `min_df`: candidate terms whose document
frequency reaches `min_df`, capped at `max_features` terms. -/
def buildVocab (docs : List (List String)) (min_df : ℕ) : List String :=
  ((allTerms docs).filter fun t => decide (min_df ≤ termDf docs t)).take
    max_features

/-- The `try/except` around vectorizer fitting: fit with `min_df=2`; an
empty vocabulary raises, is caught, and the fit is retried with
`min_df=1`; an empty vocabulary on the retry propagates as an error. -/
def fitVocab (docs : List (List String)) : Except Unit (List String) :=
  let v2 := buildVocab docs 2
  if v2.isEmpty then
    let v1 := buildVocab docs 1
    if v1.isEmpty then .error () else .ok v1
  else .ok v2

/-- Smoothed inverse document frequency
(`smooth_idf=True`: `ln((1+n)/(1+df)) + 1`). -/
noncomputable def idf (docs : List (List String)) (t : String) : ℝ :=
  Real.log ((1 + (docs.length : ℝ)) / (1 + (termDf docs t : ℝ))) + 1

/-- The TF-IDF weight matrix (documents by vocabulary positions): raw term
count times idf.  The vectorizer's final per-row l2 normalisation is
absorbed into the cosine step, which renormalises by the same row norms. -/
noncomputable def tfidfX (docs : List (List String)) (vocab : List String) :
    Mat :=
  fun d k => ((docs.getD d []).count (vocab.getD k "") : ℝ) *
    idf docs (vocab.getD k "")

noncomputable def dotRow (X : Mat) (T i j : ℕ) : ℝ :=
  ((List.range T).map fun k => X i k * X j k).sum

noncomputable def rowNorm (X : Mat) (T i : ℕ) : ℝ :=
  Real.sqrt ((List.range T).map fun k => X i k ^ 2).sum

/-- sklearn's `normalize` replaces a zero row norm by 1, so an all-zero
row stays zero instead of dividing by zero. -/
noncomputable def safeNorm (X : Mat) (T i : ℕ) : ℝ :=
  if rowNorm X T i = 0 then 1 else rowNorm X T i

/-- `cosine_similarity` over the rows of `X` with `T` feature columns. -/
noncomputable def cosineSim (X : Mat) (T : ℕ) : Mat :=
  fun i j => dotRow X T i j / (safeNorm X T i * safeNorm X T j)

/-- `S_text = cosine_similarity(X)` for the fitted vocabulary. -/
noncomputable def S_text (rows : List Record) (vocab : List String) : Mat :=
  cosineSim (tfidfX (rows.map docTokens) vocab) vocab.length

/-- `get_temporal_range`: priority exact `year`, else both dates, else the
single available date, else no range. -/
def get_temporal_range (r : Record) : Option (ℤ × ℤ) :=
  match r.year with
  | some y => some (y, y)
  | Option.none =>
    match r.date_begin, r.date_end with
    | some b, some e => some (b, e)
    | some b, Option.none => some (b, b)
    | Option.none, some e => some (e, e)
    | Option.none, Option.none => Option.none

/-- `calculate_temporal_distance`: minimum gap between two ranges, `0` when
they overlap or touch. -/
def calculate_temporal_distance (tMinI tMaxI tMinJ tMaxJ : ℤ) : ℤ :=
  if tMaxI < tMinJ then tMinJ - tMaxI
  else if tMaxJ < tMinI then tMinI - tMaxJ
  else 0

/-- Temporal kernel bandwidth in years. -/
noncomputable def bandwidth : ℝ := 25

/-- Spatial kernel bandwidth in kilometres. -/
noncomputable def sigma : ℝ := 400

/-- Write `v` into cells `(i, j)` and `(j, i)` of `M`
(`S[i, j] = v; S[j, i] = v`). -/
def symUpd (M : Mat) (i j : ℕ) (v : ℝ) : Mat :=
  fun a b => if (a = i ∧ b = j) ∨ (a = j ∧ b = i) then v else M a b

/-- One iteration of a symmetric-fill loop: the per-pair kernel `f` yields
`none` when a `continue` skips the pair, and the similarity value
otherwise. -/
def fillStep (f : ℕ → ℕ → Option ℝ) (M : Mat) (p : ℕ × ℕ) : Mat :=
  match f p.1 p.2 with
  | some v => symUpd M p.1 p.2 v
  | Option.none => M

/-- The index pairs visited by
`for i in range(n): for j in range(i, n): ...`, in loop order. -/
def pairsUpTo (n : ℕ) : List (ℕ × ℕ) :=
  (List.range n).flatMap fun i =>
    ((List.range n).filter fun j => decide (i ≤ j)).map fun j => (i, j)

/-- `np.zeros((n, n))`. -/
def zeroMat : Mat := fun _ _ => 0

/-- Result of a symmetric-fill loop over kernel `f`. -/
def fillMat (f : ℕ → ℕ → Option ℝ) (n : ℕ) : Mat :=
  (pairsUpTo n).foldl (fillStep f) zeroMat

/-- Per-pair temporal kernel: skipped (outer or inner `continue`) when
either record has no temporal range, else
`exp(-distance / bandwidth)`. -/
noncomputable def dateKernel (rows : List Record) (i j : ℕ) : Option ℝ :=
  match get_temporal_range (getRec rows i), get_temporal_range (getRec rows j) with
  | some (a, b), some (c, d) =>
    some (Real.exp (-(calculate_temporal_distance a b c d : ℝ) / bandwidth))
  | _, _ => Option.none

/-- The temporal similarity matrix before normalisation. -/
noncomputable def S_date_pre (rows : List Record) : Mat :=
  fillMat (dateKernel rows) rows.length

noncomputable def radians (x : ℝ) : ℝ := x * Real.pi / 180

/-- Great-circle distance on a sphere of radius 6371 km. -/
noncomputable def haversine (lat1 lon1 lat2 lon2 : ℝ) : ℝ :=
  let R : ℝ := 6371
  let dlat := radians (lat2 - lat1)
  let dlon := radians (lon2 - lon1)
  let a := Real.sin (dlat / 2) ^ 2 +
    Real.cos (radians lat1) * Real.cos (radians lat2) * Real.sin (dlon / 2) ^ 2
  let c := 2 * Real.arcsin (Real.sqrt a)
  R * c

/-- Per-pair spatial kernel: skipped when either record lacks a
coordinate, else `exp(-haversine / sigma)`. -/
noncomputable def placeKernel (rows : List Record) (i j : ℕ) : Option ℝ :=
  match (getRec rows i).place_lat, (getRec rows i).place_lon,
      (getRec rows j).place_lat, (getRec rows j).place_lon with
  | some lat1, some lon1, some lat2, some lon2 =>
    some (Real.exp (-haversine lat1 lon1 lat2 lon2 / sigma))
  | _, _, _, _ => Option.none

/-- The spatial similarity matrix before normalisation. -/
noncomputable def S_place_pre (rows : List Record) : Mat :=
  fillMat (placeKernel rows) rows.length

/-- Column minimum of the top-left `n × n` block (`X.min(axis=0)`). -/
noncomputable def colMin (M : Mat) (n j : ℕ) : ℝ :=
  (List.range n).foldl (fun acc i => min acc (M i j)) (M 0 j)

/-- Column maximum of the top-left `n × n` block (`X.max(axis=0)`). -/
noncomputable def colMax (M : Mat) (n j : ℕ) : ℝ :=
  (List.range n).foldl (fun acc i => max acc (M i j)) (M 0 j)

/-- `MinMaxScaler().fit_transform`: each column is rescaled by its own
observed minimum and maximum; a zero column range is replaced by 1
(`_handle_zeros_in_scale`), collapsing a constant column to 0. -/
noncomputable def minmaxCols (M : Mat) (n : ℕ) : Mat :=
  fun i j =>
    let spread := colMax M n j - colMin M n j
    (M i j - colMin M n j) * (if spread = 0 then 1 else spread⁻¹)

/-- The `if n > 1:` normalisation guard around the scaler. -/
noncomputable def normalizeStep (n : ℕ) (M : Mat) : Mat :=
  if 1 < n then minmaxCols M n else M

/-- `S_date` as used for fusion and export (post-normalisation). -/
noncomputable def S_date (rows : List Record) : Mat :=
  normalizeStep rows.length (S_date_pre rows)

/-- `S_place` as used for fusion and export (post-normalisation). -/
noncomputable def S_place (rows : List Record) : Mat :=
  normalizeStep rows.length (S_place_pre rows)

noncomputable def alpha : ℝ := 0.5
noncomputable def beta : ℝ := 0.2
noncomputable def gamma : ℝ := 0.2
noncomputable def delta : ℝ := 0.1

/-- `G = α·S_text + β·S_date + γ·S_place + δ·0` (no user channel yet). -/
noncomputable def G (rows : List Record) (vocab : List String) : Mat :=
  fun i j => alpha * S_text rows vocab i j + beta * S_date rows i j +
    gamma * S_place rows i j + delta * 0

def top_k : ℕ := 50

/-- `scores = G[i].copy(); scores[i] = -1`. -/
noncomputable def scoresRow (M : Mat) (i : ℕ) : ℕ → ℝ :=
  fun j => if j = i then -1 else M i j

/-- `np.argsort(scores)` over indices `0 .. n-1`: index list sorted by
score ascending.  (The source's introsort is not stable; tie order is
implementation-defined there and modelled here by a stable sort.) -/
noncomputable def argsort (s : ℕ → ℝ) (n : ℕ) : List ℕ :=
  (List.range n).insertionSort fun a b => s a ≤ s b

/-- `np.argsort(scores)[-top_k:][::-1]`: the indices of the (up to)
`top_k` highest scores, highest first. -/
noncomputable def topIdx (M : Mat) (n i : ℕ) : List ℕ :=
  ((argsort (scoresRow M i) n).drop (n - top_k)).reverse

/-- One exported neighbor entry. -/
structure NItem where
  id : String
  score : ℝ
  s_text : ℝ
  s_date : ℝ
  s_place : ℝ
  title : String

/-- The dict appended to `items` for neighbor index `j` of record `i`. -/
noncomputable def mkItem (rows : List Record) (vocab : List String)
    (i j : ℕ) : NItem :=
  ⟨(getRec rows j).id, scoresRow (G rows vocab) i j, S_text rows vocab i j,
    S_date rows i j, S_place rows i j, (getRec rows j).title⟩

/-- The exported neighbor list of record `i`. -/
noncomputable def itemsFor (rows : List Record) (vocab : List String)
    (i : ℕ) : List NItem :=
  (topIdx (G rows vocab) rows.length i).map (mkItem rows vocab i)

/-- The exported mapping `record id → neighbor list`. -/
noncomputable def neighbors (rows : List Record) (vocab : List String) :
    List (String × List NItem) :=
  (List.range rows.length).map fun i =>
    ((getRec rows i).id, itemsFor rows vocab i)

/-- The whole pipeline after loading: gazetteer backfill, vectorizer
fitting with its fallback (a failure of the retry propagates), kernels,
normalisation, fusion, ranking, and the exported mapping. -/
noncomputable def runPipeline (gaz : Gazetteer) (rows : List Record) :
    Except Unit (List (String × List NItem)) :=
  let rows2 := rows.map (backfill gaz)
  match fitVocab (rows2.map docTokens) with
  | .ok vocab => .ok (neighbors rows2 vocab)
  | .error e => .error e

/-! ### Concrete corpora used in the closed statements -/

/-- A record with one text token, an exact year and coordinates. -/
noncomputable def rec1 : Record :=
  ⟨"r0", "alpha", "", "", "", some 1900, Option.none, Option.none,
    some 0, some 0, "", ""⟩

/-- A second record, thirty years later, without coordinates. -/
noncomputable def rec2 : Record :=
  ⟨"r1", "bravo", "", "", "", some 1930, Option.none, Option.none,
    Option.none, Option.none, "", ""⟩

/-- A record sharing `rec1`'s year. -/
noncomputable def recSame : Record :=
  ⟨"s1", "bravo", "", "", "", some 1900, Option.none, Option.none,
    Option.none, Option.none, "", ""⟩

/-- A record with every text field empty and no year, dates or
coordinates: its text blob has no token at all. -/
noncomputable def recEmpty : Record :=
  ⟨"e0", "", "", "", "", Option.none, Option.none, Option.none,
    Option.none, Option.none, "", ""⟩

/-- A record with a latitude but no longitude, and a place label. -/
noncomputable def rHalf : Record :=
  ⟨"h0", "", "", "", "Paris", Option.none, Option.none, Option.none,
    some 10, Option.none, "", ""⟩

/-- A record with both coordinates present. -/
noncomputable def rBoth : Record :=
  ⟨"b0", "", "", "", "Paris", Option.none, Option.none, Option.none,
    some 10, some 20, "", ""⟩

/-- A gazetteer entry matching the label of `rHalf` and `rBoth`. -/
noncomputable def gazP : Gazetteer := [("Paris", (some 99, some 88))]

noncomputable def corpus1 : List Record := [rec1]

noncomputable def corpus2 : List Record := [rec1, rec2]

noncomputable def corpus51 : List Record := List.replicate 51 rec1

/-- Two records with the same exact year: every temporal similarity is 1. -/
noncomputable def corpusSame : List Record := [rec1, recSame]

noncomputable def recA : Record :=
  ⟨"a", "alpha", "", "", "", some 0, Option.none, Option.none,
    Option.none, Option.none, "", ""⟩

noncomputable def recB : Record :=
  ⟨"b", "bravo", "", "", "", some 25, Option.none, Option.none,
    Option.none, Option.none, "", ""⟩

noncomputable def recC : Record :=
  ⟨"c", "charlie", "", "", "", some 50, Option.none, Option.none,
    Option.none, Option.none, "", ""⟩

/-- Years 0, 25, 50: the columns of the temporal matrix then have
different observed minima, which the per-column scaler rescales
differently. -/
noncomputable def corpus3 : List Record := [recA, recB, recC]

/-- A small concrete matrix for exercising the scaler: column 0 holds the
values 3 (row 0) and 7 (row 1). -/
noncomputable def wMat : Mat := fun i _ => if i = 0 then 3 else 7

/-! ### Lemmas about the symmetric-fill loops -/

theorem mem_pairsUpTo {n a b : ℕ} : (a, b) ∈ pairsUpTo n ↔ a ≤ b ∧ b < n := by
  simp only [pairsUpTo, List.mem_flatMap, List.mem_map, List.mem_filter,
    List.mem_range, decide_eq_true_eq, Prod.mk.injEq]
  constructor
  · rintro ⟨i, hi, j, ⟨hjn, hij⟩, rfl, rfl⟩
    exact ⟨hij, hjn⟩
  · rintro ⟨hab, hbn⟩
    exact ⟨a, by omega, b, ⟨hbn, hab⟩, rfl, rfl⟩

theorem pairsUpTo_le {n : ℕ} : ∀ p ∈ pairsUpTo n, p.1 ≤ p.2 := by
  rintro ⟨a, b⟩ hp
  exact (mem_pairsUpTo.mp hp).1

/-- In a fold of symmetric writes over pairs `(p₁, p₂)` with `p₁ ≤ p₂`,
a pair `(a, b)` with `a ≤ b` that occurs in the list and whose kernel is
defined determines both cells `(a, b)` and `(b, a)` of the result: no
other pair of the list can write those cells. -/
theorem fill_foldl_some (f : ℕ → ℕ → Option ℝ) :
    ∀ (l : List (ℕ × ℕ)) (M : Mat) {a b : ℕ} {v : ℝ},
      (∀ p ∈ l, p.1 ≤ p.2) → a ≤ b → (a, b) ∈ l → f a b = some v →
      (l.foldl (fillStep f) M) a b = v ∧ (l.foldl (fillStep f) M) b a = v := by
  intro l
  induction l using List.reverseRecOn with
  | nil => intro M a b v _ _ hmem _; simp at hmem
  | append_singleton l q ih =>
    obtain ⟨q1, q2⟩ := q
    intro M a b v hle hab hmem hv
    have hle2 : ∀ p ∈ l, p.1 ≤ p.2 := fun p hp => hle p (List.mem_append_left _ hp)
    have hq12 : q1 ≤ q2 :=
      hle (q1, q2) (List.mem_append_right _ (List.mem_singleton_self _))
    rw [List.foldl_append, List.foldl_cons, List.foldl_nil]
    by_cases hq : q1 = a ∧ q2 = b
    · obtain ⟨rfl, rfl⟩ := hq
      constructor <;> simp [fillStep, hv, symUpd]
    · have hmem2 : (a, b) ∈ l := by
        rcases List.mem_append.mp hmem with h | h
        · exact h
        · simp only [List.mem_singleton, Prod.mk.injEq] at h
          exact absurd ⟨h.1.symm, h.2.symm⟩ hq
      have hI := ih M hle2 hab hmem2 hv
      cases hfq : f q1 q2 with
      | none =>
        have e : fillStep f (l.foldl (fillStep f) M) (q1, q2) =
            l.foldl (fillStep f) M := by simp [fillStep, hfq]
        rw [e]; exact hI
      | some w =>
        have hcond1 : ¬((a = q1 ∧ b = q2) ∨ (a = q2 ∧ b = q1)) := by
          rintro (⟨h1, h2⟩ | ⟨h1, h2⟩)
          · exact hq ⟨h1.symm, h2.symm⟩
          · exact hq (by omega)
        have hcond2 : ¬((b = q1 ∧ a = q2) ∨ (b = q2 ∧ a = q1)) := by
          rintro (⟨h1, h2⟩ | ⟨h1, h2⟩)
          · exact hq (by omega)
          · exact hq ⟨h2.symm, h1.symm⟩
        have estep : fillStep f (l.foldl (fillStep f) M) (q1, q2) =
            symUpd (l.foldl (fillStep f) M) q1 q2 w := by simp [fillStep, hfq]
        rw [estep]
        constructor
        · rw [show symUpd (l.foldl (fillStep f) M) q1 q2 w a b =
              (l.foldl (fillStep f) M) a b from if_neg hcond1]
          exact hI.1
        · rw [show symUpd (l.foldl (fillStep f) M) q1 q2 w b a =
              (l.foldl (fillStep f) M) b a from if_neg hcond2]
          exact hI.2

/-- The two cells determined by an in-range pair with a defined kernel. -/
theorem fillMat_some {f : ℕ → ℕ → Option ℝ} {n a b : ℕ} {v : ℝ}
    (hab : a ≤ b) (hbn : b < n) (hv : f a b = some v) :
    fillMat f n a b = v ∧ fillMat f n b a = v :=
  fill_foldl_some f (pairsUpTo n) zeroMat pairsUpTo_le hab
    (mem_pairsUpTo.mpr ⟨hab, hbn⟩) hv

/-- A cell that no pair of the list writes keeps its initial value. -/
theorem fill_foldl_not_written (f : ℕ → ℕ → Option ℝ) :
    ∀ (l : List (ℕ × ℕ)) (M : Mat) {a b : ℕ},
      (∀ p ∈ l, (f p.1 p.2).isSome →
        ¬((a = p.1 ∧ b = p.2) ∨ (a = p.2 ∧ b = p.1))) →
      (l.foldl (fillStep f) M) a b = M a b := by
  intro l
  induction l with
  | nil => intro M a b _; rfl
  | cons p l ih =>
    obtain ⟨p1, p2⟩ := p
    intro M a b h
    rw [List.foldl_cons, ih _ (fun p hp => h p (List.mem_cons_of_mem _ hp))]
    cases hfp : f p1 p2 with
    | none => simp [fillStep, hfp]
    | some w =>
      have hc := h (p1, p2) (List.mem_cons_self _ _) (by simp [hfp])
      have estep : fillStep f M (p1, p2) = symUpd M p1 p2 w := by
        simp [fillStep, hfp]
      rw [estep]
      exact if_neg hc

/-- A record index whose kernel row and column are everywhere undefined
leaves its whole row and column of the fill result at the zero default. -/
theorem fillMat_row_none {f : ℕ → ℕ → Option ℝ} {n i : ℕ}
    (hrow : ∀ x, f i x = Option.none) (hcol : ∀ x, f x i = Option.none) :
    ∀ x, fillMat f n i x = 0 ∧ fillMat f n x i = 0 := by
  intro x
  constructor <;>
  · apply fill_foldl_not_written
    rintro ⟨p1, p2⟩ hp hs (⟨h1, h2⟩ | ⟨h1, h2⟩) <;>
      simp_all [hrow, hcol]

/-- Each fill step preserves symmetry of the accumulated matrix. -/
theorem fill_foldl_symm (f : ℕ → ℕ → Option ℝ) :
    ∀ (l : List (ℕ × ℕ)) (M : Mat), (∀ a b, M a b = M b a) →
      ∀ a b, (l.foldl (fillStep f) M) a b = (l.foldl (fillStep f) M) b a := by
  intro l
  induction l with
  | nil => intro M hM a b; exact hM a b
  | cons p l ih =>
    obtain ⟨p1, p2⟩ := p
    intro M hM a b
    rw [List.foldl_cons]
    apply ih
    intro c d
    cases hfp : f p1 p2 with
    | none => simp [fillStep, hfp, hM c d]
    | some w =>
      simp only [fillStep, hfp, symUpd]
      by_cases hcd : (c = p1 ∧ d = p2) ∨ (c = p2 ∧ d = p1)
      · rw [if_pos hcd, if_pos (by tauto)]
      · rw [if_neg hcd, if_neg (by tauto)]
        exact hM c d

theorem fillMat_symm (f : ℕ → ℕ → Option ℝ) (n a b : ℕ) :
    fillMat f n a b = fillMat f n b a :=
  fill_foldl_symm f (pairsUpTo n) zeroMat (fun _ _ => rfl) a b

/-- Each fill step preserves entrywise nonnegativity when the kernel only
produces nonnegative values. -/
theorem fill_foldl_nonneg {f : ℕ → ℕ → Option ℝ}
    (hf : ∀ i j v, f i j = some v → 0 ≤ v) :
    ∀ (l : List (ℕ × ℕ)) (M : Mat), (∀ a b, 0 ≤ M a b) →
      ∀ a b, 0 ≤ (l.foldl (fillStep f) M) a b := by
  intro l
  induction l with
  | nil => intro M hM a b; exact hM a b
  | cons p l ih =>
    obtain ⟨p1, p2⟩ := p
    intro M hM a b
    rw [List.foldl_cons]
    apply ih
    intro c d
    cases hfp : f p1 p2 with
    | none => simp [fillStep, hfp, hM c d]
    | some w =>
      simp only [fillStep, hfp, symUpd]
      by_cases hcd : (c = p1 ∧ d = p2) ∨ (c = p2 ∧ d = p1)
      · rw [if_pos hcd]; exact hf p1 p2 w hfp
      · rw [if_neg hcd]; exact hM c d

theorem fillMat_nonneg {f : ℕ → ℕ → Option ℝ}
    (hf : ∀ i j v, f i j = some v → 0 ≤ v) (n a b : ℕ) :
    0 ≤ fillMat f n a b :=
  fill_foldl_nonneg hf (pairsUpTo n) zeroMat (fun _ _ => le_refl 0) a b

/-! ### Kernel-specific facts -/

theorem dateKernel_nonneg (rows : List Record) :
    ∀ i j v, dateKernel rows i j = some v → 0 ≤ v := by
  intro i j v h
  unfold dateKernel at h
  split at h
  · exact Option.some_injective _ h ▸ (Real.exp_pos _).le
  · exact absurd h (by simp)

theorem dateKernel_none_left {rows : List Record} {i : ℕ}
    (h : get_temporal_range (getRec rows i) = Option.none) :
    ∀ x, dateKernel rows i x = Option.none := by
  intro x
  unfold dateKernel
  rw [h]

theorem dateKernel_none_right {rows : List Record} {i : ℕ}
    (h : get_temporal_range (getRec rows i) = Option.none) :
    ∀ x, dateKernel rows x i = Option.none := by
  intro x
  unfold dateKernel
  rw [h]
  rcases get_temporal_range (getRec rows x) with _ | ⟨c, d⟩ <;> rfl

theorem placeKernel_nonneg (rows : List Record) :
    ∀ i j v, placeKernel rows i j = some v → 0 ≤ v := by
  intro i j v h
  unfold placeKernel at h
  split at h
  · exact Option.some_injective _ h ▸ (Real.exp_pos _).le
  · exact absurd h (by simp)

theorem S_date_pre_nonneg (rows : List Record) (a b : ℕ) :
    0 ≤ S_date_pre rows a b :=
  fillMat_nonneg (dateKernel_nonneg rows) _ a b

theorem S_place_pre_nonneg (rows : List Record) (a b : ℕ) :
    0 ≤ S_place_pre rows a b :=
  fillMat_nonneg (placeKernel_nonneg rows) _ a b

/-! ### Column extrema and the scaler -/

theorem foldl_min_le_init (g : ℕ → ℝ) :
    ∀ (l : List ℕ) (acc : ℝ), l.foldl (fun acc i => min acc (g i)) acc ≤ acc := by
  intro l
  induction l with
  | nil => intro acc; exact le_refl acc
  | cons i l ih =>
    intro acc
    rw [List.foldl_cons]
    exact (ih _).trans (min_le_left _ _)

theorem foldl_min_le_mem (g : ℕ → ℝ) :
    ∀ (l : List ℕ) (acc : ℝ) {i : ℕ}, i ∈ l →
      l.foldl (fun acc i => min acc (g i)) acc ≤ g i := by
  intro l
  induction l with
  | nil => intro acc i h; simp at h
  | cons j l ih =>
    intro acc i h
    rw [List.foldl_cons]
    rcases List.mem_cons.mp h with rfl | h
    · exact (foldl_min_le_init g l _).trans (min_le_right _ _)
    · exact ih _ h

theorem init_le_foldl_max (g : ℕ → ℝ) :
    ∀ (l : List ℕ) (acc : ℝ), acc ≤ l.foldl (fun acc i => max acc (g i)) acc := by
  intro l
  induction l with
  | nil => intro acc; exact le_refl acc
  | cons i l ih =>
    intro acc
    rw [List.foldl_cons]
    exact (le_max_left _ _).trans (ih _)

theorem mem_le_foldl_max (g : ℕ → ℝ) :
    ∀ (l : List ℕ) (acc : ℝ) {i : ℕ}, i ∈ l →
      g i ≤ l.foldl (fun acc i => max acc (g i)) acc := by
  intro l
  induction l with
  | nil => intro acc i h; simp at h
  | cons j l ih =>
    intro acc i h
    rw [List.foldl_cons]
    rcases List.mem_cons.mp h with rfl | h
    · exact (le_max_right _ _).trans (init_le_foldl_max g l _)
    · exact ih _ h

theorem colMin_le (M : Mat) {n i : ℕ} (j : ℕ) (hi : i < n) :
    colMin M n j ≤ M i j :=
  foldl_min_le_mem (fun i => M i j) (List.range n) _ (List.mem_range.mpr hi)

theorem le_colMax (M : Mat) {n i : ℕ} (j : ℕ) (hi : i < n) :
    M i j ≤ colMax M n j :=
  mem_le_foldl_max (fun i => M i j) (List.range n) _ (List.mem_range.mpr hi)

theorem colMin_le_colMax (M : Mat) {n : ℕ} (j : ℕ) (hn : 0 < n) :
    colMin M n j ≤ colMax M n j :=
  (colMin_le M j hn).trans (le_colMax M j hn)

theorem minmaxCols_nonneg {M : Mat} {n i : ℕ} (j : ℕ) (hn : 0 < n)
    (hi : i < n) : 0 ≤ minmaxCols M n i j := by
  unfold minmaxCols
  apply mul_nonneg (sub_nonneg.mpr (colMin_le M j hi))
  split
  · exact zero_le_one
  · exact inv_nonneg.mpr (sub_nonneg.mpr (colMin_le_colMax M j hn))

theorem normalizeStep_nonneg {M : Mat} {n i : ℕ} (j : ℕ)
    (hM : ∀ a b, 0 ≤ M a b) (hi : i < n) : 0 ≤ normalizeStep n M i j := by
  unfold normalizeStep
  split
  · exact minmaxCols_nonneg j (by omega) hi
  · exact hM i j

theorem S_date_nonneg {rows : List Record} {i : ℕ} (j : ℕ)
    (hi : i < rows.length) : 0 ≤ S_date rows i j :=
  normalizeStep_nonneg j (S_date_pre_nonneg rows) hi

theorem S_place_nonneg {rows : List Record} {i : ℕ} (j : ℕ)
    (hi : i < rows.length) : 0 ≤ S_place rows i j :=
  normalizeStep_nonneg j (S_place_pre_nonneg rows) hi

/-! ### Nonnegativity of the text channel -/

theorem termDf_le_length (docs : List (List String)) (t : String) :
    termDf docs t ≤ docs.length :=
  List.countP_le_length _

theorem idf_nonneg (docs : List (List String)) (t : String) :
    0 ≤ idf docs t := by
  unfold idf
  have hdf : (termDf docs t : ℝ) ≤ (docs.length : ℝ) := by
    exact_mod_cast termDf_le_length docs t
  have h1 : (1 : ℝ) ≤ (1 + (docs.length : ℝ)) / (1 + (termDf docs t : ℝ)) := by
    rw [le_div_iff₀ (by positivity)]
    linarith
  have := Real.log_nonneg h1
  linarith

theorem tfidfX_nonneg (docs : List (List String)) (vocab : List String)
    (d k : ℕ) : 0 ≤ tfidfX docs vocab d k :=
  mul_nonneg (Nat.cast_nonneg _) (idf_nonneg docs _)

theorem dotRow_nonneg {X : Mat} (hX : ∀ d k, 0 ≤ X d k) (T i j : ℕ) :
    0 ≤ dotRow X T i j := by
  apply List.sum_nonneg
  intro x hx
  obtain ⟨k, _, rfl⟩ := List.mem_map.mp hx
  exact mul_nonneg (hX i k) (hX j k)

theorem safeNorm_pos (X : Mat) (T i : ℕ) : 0 < safeNorm X T i := by
  unfold safeNorm
  split
  · exact zero_lt_one
  · exact lt_of_le_of_ne (Real.sqrt_nonneg _) (Ne.symm (by assumption))

theorem cosineSim_nonneg {X : Mat} (hX : ∀ d k, 0 ≤ X d k) (T i j : ℕ) :
    0 ≤ cosineSim X T i j :=
  div_nonneg (dotRow_nonneg hX T i j)
    (mul_pos (safeNorm_pos X T i) (safeNorm_pos X T j)).le

theorem S_text_nonneg (rows : List Record) (vocab : List String) (i j : ℕ) :
    0 ≤ S_text rows vocab i j :=
  cosineSim_nonneg (tfidfX_nonneg _ _) _ i j

theorem G_nonneg {rows : List Record} (vocab : List String) {i : ℕ} (j : ℕ)
    (hi : i < rows.length) : 0 ≤ G rows vocab i j := by
  unfold G alpha beta gamma delta
  have h1 := S_text_nonneg rows vocab i j
  have h2 := S_date_nonneg j hi
  have h3 := S_place_nonneg j hi
  nlinarith

/-! ### Sorting and top-K selection -/

theorem argsort_perm (s : ℕ → ℝ) (n : ℕ) :
    List.Perm (argsort s n) (List.range n) :=
  List.perm_insertionSort _ _

theorem argsort_sorted (s : ℕ → ℝ) (n : ℕ) :
    List.Sorted (fun a b => s a ≤ s b) (argsort s n) := by
  haveI : IsTotal ℕ fun a b => s a ≤ s b := ⟨fun a b => le_total _ _⟩
  haveI : IsTrans ℕ fun a b => s a ≤ s b := ⟨fun a b c => le_trans⟩
  exact List.sorted_insertionSort _ _

theorem argsort_length (s : ℕ → ℝ) (n : ℕ) : (argsort s n).length = n := by
  rw [(argsort_perm s n).length_eq, List.length_range]

theorem topIdx_len (M : Mat) (n i : ℕ) :
    (topIdx M n i).length = min n top_k := by
  unfold topIdx
  rw [List.length_reverse, List.length_drop, argsort_length]
  omega

/-- When the whole corpus fits below the cap, the slice keeps every
index: membership in the top list is membership in `range n`. -/
theorem mem_topIdx_of_le {M : Mat} {n : ℕ} (i : ℕ) {j : ℕ} (hj : j < n)
    (hnk : n ≤ top_k) : j ∈ topIdx M n i := by
  unfold topIdx
  rw [List.mem_reverse, show n - top_k = 0 from by omega, List.drop_zero]
  exact (argsort_perm _ n).mem_iff.mpr (List.mem_range.mpr hj)

/-- Core of the self-exclusion argument: with the self score forced to
`-1` and every other score of the row nonnegative, the self index is the
unique minimum, hence sits at the head of the ascending argsort; a slice
of the last `top_k` elements misses it exactly when `top_k < n`. -/
theorem self_not_mem_topIdx {M : Mat} {n i : ℕ}
    (hpos : ∀ j, j < n → j ≠ i → 0 ≤ M i j) (hn : top_k < n) :
    i ∉ topIdx M n i := by
  intro hmem
  unfold topIdx at hmem
  rw [List.mem_reverse] at hmem
  have hperm := argsort_perm (scoresRow M i) n
  have hsorted := argsort_sorted (scoresRow M i) n
  have hlen := argsort_length (scoresRow M i) n
  have hnodup : (argsort (scoresRow M i) n).Nodup :=
    hperm.nodup_iff.mpr (List.nodup_range n)
  obtain ⟨h0, t, hcons⟩ : ∃ h0 t, argsort (scoresRow M i) n = h0 :: t := by
    cases hl : argsort (scoresRow M i) n with
    | nil => rw [hl] at hlen; simp at hlen; omega
    | cons a t => exact ⟨a, t, rfl⟩
  rw [hcons] at hmem hsorted hnodup hperm
  have hit : i ∈ t := by
    have hdrop : (h0 :: t).drop (n - top_k) = t.drop (n - top_k - 1) := by
      rw [show n - top_k = (n - top_k - 1) + 1 from by omega,
        List.drop_succ_cons]
      congr 1
    rw [hdrop] at hmem
    exact List.drop_subset _ _ hmem
  have hne : h0 ≠ i := by
    rintro rfl
    exact (List.nodup_cons.mp hnodup).1 hit
  have hh0n : h0 < n := by
    have := hperm.mem_iff.mp (List.mem_cons_self h0 t)
    simpa [List.mem_range] using this
  have hle : scoresRow M i h0 ≤ scoresRow M i i :=
    List.rel_of_sorted_cons hsorted i hit
  have hsi : scoresRow M i i = -1 := by simp [scoresRow]
  have hsh0 : 0 ≤ scoresRow M i h0 := by
    have := hpos h0 hh0n hne
    simpa [scoresRow, hne] using this
  rw [hsi] at hle
  linarith

/-! ### Helper facts for the field-normalisation helpers -/

theorem extract_text_field_core_str (v : Value) :
    ∃ s, extract_text_field_core v = .str s := by
  unfold extract_text_field_core
  split
  · exact ⟨_, rfl⟩
  · exact ⟨_, rfl⟩
  · split
    · exact ⟨_, rfl⟩
    · exact ⟨_, rfl⟩
    · exact ⟨_, rfl⟩
  · exact ⟨_, rfl⟩

theorem extract_place_name_core_str (v : Value) :
    ∃ s, extract_place_name_core v = .str s := by
  unfold extract_place_name_core
  split
  · exact ⟨_, rfl⟩
  · exact ⟨_, rfl⟩
  · exact ⟨_, rfl⟩
  · exact ⟨_, rfl⟩

theorem handle_scalar_values_str (f : Value → Value)
    (hf : ∀ v, ∃ s, f v = .str s) (v : Value) :
    ∃ s, handle_scalar_values f v = .str s := by
  unfold handle_scalar_values
  split
  · exact ⟨"", rfl⟩
  · split
    · exact ⟨"", rfl⟩
    · exact hf _

/-! ### The claims -/

/-- C1 (amended): forcing the self-entry of row `i` of the fused matrix to
−1 guarantees that `i` is never among the K highest-scoring indices of its
own row whenever the corpus has more than K records; the sentinel sits
strictly below every other (nonnegative) score, so it lands at the head of
the ascending argsort and the `[-K:]` slice misses it exactly when
`N > K`. -/
theorem C1_self_exclusion (rows : List Record) (vocab : List String)
    (i : ℕ) (hi : i < rows.length) (hn : top_k < rows.length) :
    i ∉ topIdx (G rows vocab) rows.length i :=
  self_not_mem_topIdx (fun j _ _ => G_nonneg vocab j hi) hn

theorem C1_self_exclusion_witness :
    0 ∉ topIdx (G corpus51 ["alpha"]) corpus51.length 0 :=
  C1_self_exclusion corpus51 ["alpha"] 0 (by norm_num [corpus51])
    (by norm_num [corpus51, top_k])

/-- C1 fails as stated for `N ≤ K`: on a one-record corpus the pipeline
exports, for record `r0`, a neighbor list containing `r0` itself (the
`[-K:]` slice of a 1-element argsort keeps everything). -/
theorem C1_counterexample :
    runPipeline [] corpus1 = .ok [("r0", [mkItem corpus1 ["alpha"] 0 0])] ∧
    (mkItem corpus1 ["alpha"] 0 0).id = "r0" ∧ (getRec corpus1 0).id = "r0" :=
  ⟨rfl, rfl, rfl⟩

/-- C4 (amended): the exported neighbor list of every record has length
`min N K` — at most K, but equal to `N` (not `N − 1`) whenever `N ≤ K`,
because the argsort slice keeps all `N` indices, self included. -/
theorem C4_neighbor_length (rows : List Record) (vocab : List String)
    (i : ℕ) : (itemsFor rows vocab i).length = min rows.length top_k := by
  unfold itemsFor
  rw [List.length_map, topIdx_len]

/-- C4 fails as stated at `N = 1`: the neighbor list has length 1, not
`≤ N − 1 = 0` (the list holds the record itself rather than being
empty). -/
theorem C4_counterexample :
    (itemsFor corpus1 ["alpha"] 0).length = 1 ∧ corpus1.length = 1 ∧
    ¬((itemsFor corpus1 ["alpha"] 0).length ≤ corpus1.length - 1) := by
  refine ⟨rfl, rfl, fun h => ?_⟩
  rw [show (itemsFor corpus1 ["alpha"] 0).length = 1 from rfl,
    show corpus1.length = 1 from rfl] at h
  omega

/-- C5 (amended): every exported neighbor entry whose target differs from
the source record carries a fused score equal to
`α·S_text + β·S_date + γ·S_place` computed from the same per-channel
values exported in that entry (the reserved fourth channel contributes
`δ·0`). -/
theorem C5_score_formula (rows : List Record) (vocab : List String)
    (i j : ℕ) (_hj : j ∈ topIdx (G rows vocab) rows.length i) (hne : j ≠ i) :
    (mkItem rows vocab i j).score =
      alpha * (mkItem rows vocab i j).s_text +
      beta * (mkItem rows vocab i j).s_date +
      gamma * (mkItem rows vocab i j).s_place := by
  simp only [mkItem, scoresRow, if_neg hne, G]
  ring

theorem C5_score_formula_witness :
    (mkItem corpus2 [] 0 1).score =
      alpha * (mkItem corpus2 [] 0 1).s_text +
      beta * (mkItem corpus2 [] 0 1).s_date +
      gamma * (mkItem corpus2 [] 0 1).s_place :=
  C5_score_formula corpus2 [] 0 1
    (mem_topIdx_of_le 0 (by norm_num [corpus2]) (by norm_num [corpus2, top_k]))
    (by norm_num)

/-- C5 fails as stated for the self-entry exported when `N ≤ K`: that
entry carries the sentinel score −1 while the weighted sum of its own
exported channel values is nonnegative. -/
theorem C5_counterexample :
    mkItem corpus1 ["alpha"] 0 0 ∈ itemsFor corpus1 ["alpha"] 0 ∧
    (mkItem corpus1 ["alpha"] 0 0).score ≠
      alpha * (mkItem corpus1 ["alpha"] 0 0).s_text +
      beta * (mkItem corpus1 ["alpha"] 0 0).s_date +
      gamma * (mkItem corpus1 ["alpha"] 0 0).s_place := by
  constructor
  · rw [show itemsFor corpus1 ["alpha"] 0 = [mkItem corpus1 ["alpha"] 0 0]
      from rfl]
    exact List.mem_singleton_self _
  · have h1 := S_text_nonneg corpus1 ["alpha"] 0 0
    have h2 := S_date_nonneg 0 (show 0 < corpus1.length by norm_num [corpus1])
    have h3 := S_place_nonneg 0 (show 0 < corpus1.length by norm_num [corpus1])
    simp only [mkItem, scoresRow, if_pos rfl, reduceIte]
    unfold alpha beta gamma
    intro heq
    linarith

/-- C7 (amended): the gazetteer backfill leaves a record untouched when
both coordinates are already present; a record with exactly one present
coordinate is, however, rewritten wholesale on a gazetteer match. -/
theorem C7_no_overwrite_when_both_present (gaz : Gazetteer) (r : Record)
    (h1 : r.place_lat.isSome) (h2 : r.place_lon.isSome) :
    backfill gaz r = r := by
  unfold backfill
  rw [if_pos (by rw [h1, h2]; rfl)]

theorem C7_no_overwrite_witness : backfill gazP rBoth = rBoth :=
  C7_no_overwrite_when_both_present gazP rBoth (by rfl) (by rfl)

/-- C7 fails as stated: a record with a present latitude but missing
longitude whose place label matches the gazetteer gets its present
latitude overwritten by the gazetteer value. -/
theorem C7_counterexample :
    rHalf.place_lat = some 10 ∧ (backfill gazP rHalf).place_lat = some 99 ∧
    (backfill gazP rHalf).place_lat ≠ rHalf.place_lat := by
  have hb : (backfill gazP rHalf).place_lat = some 99 := by
    simp [backfill, rHalf, gazP]
  refine ⟨rfl, hb, ?_⟩
  rw [hb, show rHalf.place_lat = some (10 : ℝ) from rfl]
  intro heq
  have : (99 : ℝ) = 10 := Option.some_injective _ heq
  norm_num at this

/-- C8 (amended): when the `min_df=2` vocabulary is empty, the retry with
`min_df=1` succeeds with a non-empty vocabulary provided some document
contains a non-stop-word token; with no token anywhere the retry also
yields an empty vocabulary and the failure propagates. -/
theorem C8_fallback (docs : List (List String))
    (h2 : buildVocab docs 2 = []) (h1 : buildVocab docs 1 ≠ []) :
    fitVocab docs = .ok (buildVocab docs 1) ∧ buildVocab docs 1 ≠ [] := by
  refine ⟨?_, h1⟩
  unfold fitVocab
  rw [h2]
  simp [h1]

theorem C8_fallback_witness :
    fitVocab [["alpha"], ["bravo"]] =
      .ok (buildVocab [["alpha"], ["bravo"]] 1) ∧
    buildVocab [["alpha"], ["bravo"]] 1 ≠ [] :=
  C8_fallback [["alpha"], ["bravo"]] (by decide) (by decide)

/-- C8 fails as stated for a corpus whose text blobs have no token at
all: the `min_df=2` vocabulary is empty, and the `min_df=1` retry fails
too, so the whole pipeline errors instead of producing a vocabulary. -/
theorem C8_counterexample :
    buildVocab ([recEmpty].map docTokens) 2 = [] ∧
    fitVocab ([recEmpty].map docTokens) = .error () ∧
    runPipeline [] [recEmpty] = .error () :=
  ⟨rfl, rfl, rfl⟩

/-- C9: the pipeline is deterministic — it is a pure function of the
snapshot and the gazetteer, with no randomness, time or environment
dependence, so two runs on identical inputs yield identical exported
mappings. -/
theorem C9_deterministic (gaz : Gazetteer) (rows : List Record)
    (o1 o2 : Except Unit (List (String × List NItem)))
    (h1 : runPipeline gaz rows = o1) (h2 : runPipeline gaz rows = o2) :
    o1 = o2 := by
  rw [← h1, ← h2]

theorem C9_deterministic_witness :
    runPipeline [] corpus1 = runPipeline [] corpus1 :=
  C9_deterministic [] corpus1 _ _ rfl rfl

/-- C10: the field-normalisation helpers are total and string-valued —
on every scalar or container value both `extract_text_field` and
`extract_place_name` return a string, with `None` and `NaN` mapped to the
empty string. -/
theorem C10_total_string (v : Value) :
    (∃ s, extract_text_field v = .str s) ∧
    (∃ s, extract_place_name v = .str s) ∧
    ((v = .null ∨ v = .nan) →
      extract_text_field v = .str "" ∧ extract_place_name v = .str "") := by
  refine ⟨handle_scalar_values_str _ extract_text_field_core_str v,
    handle_scalar_values_str _ extract_place_name_core_str v, ?_⟩
  rintro (rfl | rfl) <;> exact ⟨rfl, rfl⟩

theorem C10_total_string_witness :
    extract_text_field Value.nan = Value.str "" ∧
    extract_place_name Value.nan = Value.str "" :=
  (C10_total_string Value.nan).2.2 (Or.inr rfl)

/-- C6: for a pair of records with defined temporal ranges (derived by
`get_temporal_range` with its year-over-dates priority), both mirrored
entries of the pre-normalisation temporal matrix equal
`exp(−distance/25)` where the distance is 0 for overlapping-or-touching
ranges and otherwise the gap between the nearer edges
(`calculate_temporal_distance`); a record with no derivable range leaves
its entire row and column at 0. -/
theorem C6_temporal_kernel (rows : List Record) (i j : ℕ) (hij : i ≤ j)
    (hj : j < rows.length) :
    (∀ a b c d : ℤ, get_temporal_range (getRec rows i) = some (a, b) →
      get_temporal_range (getRec rows j) = some (c, d) →
      S_date_pre rows i j =
        Real.exp (-(calculate_temporal_distance a b c d : ℝ) / bandwidth) ∧
      S_date_pre rows j i =
        Real.exp (-(calculate_temporal_distance a b c d : ℝ) / bandwidth)) ∧
    (get_temporal_range (getRec rows i) = Option.none →
      ∀ x, S_date_pre rows i x = 0 ∧ S_date_pre rows x i = 0) := by
  constructor
  · intro a b c d h1 h2
    have hk : dateKernel rows i j =
        some (Real.exp (-(calculate_temporal_distance a b c d : ℝ) /
          bandwidth)) := by
      unfold dateKernel
      rw [h1, h2]
    exact fillMat_some hij hj hk
  · intro h0 x
    exact fillMat_row_none (dateKernel_none_left h0) (dateKernel_none_right h0) x

theorem C6_temporal_kernel_witness :
    S_date_pre corpus2 0 1 =
      Real.exp (-(calculate_temporal_distance 1900 1900 1930 1930 : ℝ) /
        bandwidth) ∧
    S_date_pre corpus2 1 0 =
      Real.exp (-(calculate_temporal_distance 1900 1900 1930 1930 : ℝ) /
        bandwidth) :=
  (C6_temporal_kernel corpus2 0 1 (by norm_num) (by norm_num [corpus2])).1
    1900 1900 1930 1930 rfl rfl

/-- C3 (amended): the three channel matrices are symmetric as computed —
`S_text` because the cosine numerator and denominator are symmetric in
`i, j`, and the temporal/spatial matrices because the fill loop writes
both mirrored cells; the per-column normalisation applied afterwards to
`S_date`/`S_place` does not, however, preserve symmetry in general. -/
theorem C3_symmetry (rows : List Record) (vocab : List String) (i j : ℕ) :
    S_text rows vocab i j = S_text rows vocab j i ∧
    S_date_pre rows i j = S_date_pre rows j i ∧
    S_place_pre rows i j = S_place_pre rows j i := by
  refine ⟨?_, fillMat_symm _ _ i j, fillMat_symm _ _ i j⟩
  unfold S_text cosineSim
  have hdot : dotRow (tfidfX (rows.map docTokens) vocab) vocab.length i j =
      dotRow (tfidfX (rows.map docTokens) vocab) vocab.length j i := by
    unfold dotRow
    congr 1
    apply List.map_congr_left
    intro k _
    exact mul_comm _ _
  rw [hdot, mul_comm]

/-! ### Concrete temporal-matrix entries for the scaler counterexamples -/

theorem exp_neg_one_lt_one : Real.exp (-1) < 1 := by
  calc Real.exp (-1) < Real.exp 0 := Real.exp_lt_exp.mpr (by norm_num)
  _ = 1 := Real.exp_zero

theorem exp_neg_two_lt_exp_neg_one : Real.exp (-2) < Real.exp (-1) :=
  Real.exp_lt_exp.mpr (by norm_num)

theorem exp_neg_two_lt_one : Real.exp (-2) < 1 :=
  exp_neg_two_lt_exp_neg_one.trans exp_neg_one_lt_one

theorem sd3_00 : S_date_pre corpus3 0 0 = 1 := by
  have hk : dateKernel corpus3 0 0 = some 1 := by
    unfold dateKernel
    rw [show get_temporal_range (getRec corpus3 0) = some (0, 0) from rfl]
    norm_num [calculate_temporal_distance, bandwidth, Real.exp_zero]
  exact (fillMat_some (le_refl 0) (by norm_num [corpus3]) hk).1

theorem sd3_11 : S_date_pre corpus3 1 1 = 1 := by
  have hk : dateKernel corpus3 1 1 = some 1 := by
    unfold dateKernel
    rw [show get_temporal_range (getRec corpus3 1) = some (25, 25) from rfl]
    norm_num [calculate_temporal_distance, bandwidth, Real.exp_zero]
  exact (fillMat_some (le_refl 1) (by norm_num [corpus3]) hk).1

theorem sd3_01 : S_date_pre corpus3 0 1 = Real.exp (-1) ∧
    S_date_pre corpus3 1 0 = Real.exp (-1) := by
  have hk : dateKernel corpus3 0 1 = some (Real.exp (-1)) := by
    unfold dateKernel
    rw [show get_temporal_range (getRec corpus3 0) = some (0, 0) from rfl,
      show get_temporal_range (getRec corpus3 1) = some (25, 25) from rfl]
    norm_num [calculate_temporal_distance, bandwidth]
  exact fillMat_some (by norm_num) (by norm_num [corpus3]) hk

theorem sd3_02 : S_date_pre corpus3 0 2 = Real.exp (-2) ∧
    S_date_pre corpus3 2 0 = Real.exp (-2) := by
  have hk : dateKernel corpus3 0 2 = some (Real.exp (-2)) := by
    unfold dateKernel
    rw [show get_temporal_range (getRec corpus3 0) = some (0, 0) from rfl,
      show get_temporal_range (getRec corpus3 2) = some (50, 50) from rfl]
    norm_num [calculate_temporal_distance, bandwidth]
  exact fillMat_some (by norm_num) (by norm_num [corpus3]) hk

theorem sd3_12 : S_date_pre corpus3 1 2 = Real.exp (-1) ∧
    S_date_pre corpus3 2 1 = Real.exp (-1) := by
  have hk : dateKernel corpus3 1 2 = some (Real.exp (-1)) := by
    unfold dateKernel
    rw [show get_temporal_range (getRec corpus3 1) = some (25, 25) from rfl,
      show get_temporal_range (getRec corpus3 2) = some (50, 50) from rfl]
    norm_num [calculate_temporal_distance, bandwidth]
  exact fillMat_some (by norm_num) (by norm_num [corpus3]) hk

theorem cm3_0 : colMin (S_date_pre corpus3) 3 0 = Real.exp (-2) := by
  unfold colMin
  rw [show List.range 3 = [0, 1, 2] from rfl]
  simp only [List.foldl_cons, List.foldl_nil]
  rw [sd3_00, sd3_01.2, sd3_02.2, min_self,
    min_eq_right exp_neg_one_lt_one.le,
    min_eq_right exp_neg_two_lt_exp_neg_one.le]

theorem cx3_0 : colMax (S_date_pre corpus3) 3 0 = 1 := by
  unfold colMax
  rw [show List.range 3 = [0, 1, 2] from rfl]
  simp only [List.foldl_cons, List.foldl_nil]
  rw [sd3_00, sd3_01.2, sd3_02.2, max_self,
    max_eq_left exp_neg_one_lt_one.le,
    max_eq_left exp_neg_two_lt_one.le]

theorem cm3_1 : colMin (S_date_pre corpus3) 3 1 = Real.exp (-1) := by
  unfold colMin
  rw [show List.range 3 = [0, 1, 2] from rfl]
  simp only [List.foldl_cons, List.foldl_nil]
  rw [sd3_01.1, sd3_11, sd3_12.2, min_self,
    min_eq_left exp_neg_one_lt_one.le, min_self]

/-- C3 fails as stated after normalisation: for the corpus with years
0, 25, 50 the two mirrored entries (0,1) and (1,0) of the scaled temporal
matrix differ, because column 0 is rescaled by its own minimum
`exp(−2)` while column 1 is rescaled by its minimum `exp(−1)`. -/
theorem C3_counterexample : S_date corpus3 0 1 ≠ S_date corpus3 1 0 := by
  have h01 : S_date corpus3 0 1 = 0 := by
    unfold S_date normalizeStep
    rw [show corpus3.length = 3 from rfl, if_pos (show (1:ℕ) < 3 by norm_num)]
    unfold minmaxCols
    rw [sd3_01.1, cm3_1, sub_self, zero_mul]
  have h10 : 0 < S_date corpus3 1 0 := by
    unfold S_date normalizeStep
    rw [show corpus3.length = 3 from rfl, if_pos (show (1:ℕ) < 3 by norm_num)]
    unfold minmaxCols
    rw [sd3_01.2, cm3_0, cx3_0]
    dsimp only
    rw [if_neg (sub_ne_zero.mpr (ne_of_gt exp_neg_two_lt_one))]
    exact mul_pos (sub_pos.mpr exp_neg_two_lt_exp_neg_one)
      (inv_pos.mpr (sub_pos.mpr exp_neg_two_lt_one))
  rw [h01]
  exact ne_of_lt h10

/-- C2 (amended): the normalisation applied to `S_date` and `S_place` is
per-column min-max scaling (each column is rescaled by its own observed
minimum and maximum): the step is skipped when `N ≤ 1`; in a column whose
minimum and maximum differ, the column minimum maps to 0 and the column
maximum to 1; a constant column collapses to 0 — so neither "global
minimum maps to 0 / global maximum maps to 1" nor "one global rescaling
per matrix" holds in general. -/
theorem C2_per_column_minmax :
    (∀ (M : Mat) (n : ℕ), n ≤ 1 → normalizeStep n M = M) ∧
    (∀ (M : Mat) (n j i0 i1 : ℕ), 1 < n → i0 < n → i1 < n →
      M i0 j = colMin M n j → M i1 j = colMax M n j →
      colMin M n j ≠ colMax M n j →
      normalizeStep n M i0 j = 0 ∧ normalizeStep n M i1 j = 1) ∧
    (∀ (M : Mat) (n j i0 : ℕ), 1 < n → i0 < n →
      colMin M n j = colMax M n j → normalizeStep n M i0 j = 0) := by
  refine ⟨?_, ?_, ?_⟩
  · intro M n hn
    unfold normalizeStep
    rw [if_neg (by omega)]
  · intro M n j i0 i1 hn h0 h1 hmin hmax hne
    unfold normalizeStep minmaxCols
    rw [if_pos hn]
    dsimp only
    constructor
    · rw [hmin, sub_self, zero_mul]
    · rw [hmax, if_neg (sub_ne_zero.mpr (Ne.symm hne)),
        mul_inv_cancel₀ (sub_ne_zero.mpr (Ne.symm hne))]
  · intro M n j i0 hn h0 heq
    unfold normalizeStep minmaxCols
    rw [if_pos hn]
    dsimp only
    have h2 : M i0 j ≤ colMin M n j := by
      rw [heq]
      exact le_colMax M j h0
    have h4 : M i0 j = colMin M n j := le_antisymm h2 (colMin_le M j h0)
    rw [h4, sub_self, zero_mul]

theorem C2_per_column_minmax_witness :
    normalizeStep 2 wMat 0 0 = 0 ∧ normalizeStep 2 wMat 1 0 = 1 := by
  have hmin : colMin wMat 2 0 = 3 := by
    unfold colMin
    rw [show List.range 2 = [0, 1] from rfl]
    simp only [List.foldl_cons, List.foldl_nil]
    norm_num [wMat]
  have hmax : colMax wMat 2 0 = 7 := by
    unfold colMax
    rw [show List.range 2 = [0, 1] from rfl]
    simp only [List.foldl_cons, List.foldl_nil]
    norm_num [wMat]
  exact C2_per_column_minmax.2.1 wMat 2 0 0 1 (by norm_num) (by norm_num)
    (by norm_num) (by rw [hmin]; norm_num [wMat]) (by rw [hmax]; norm_num [wMat])
    (by rw [hmin, hmax]; norm_num)

theorem sdSame_00 : S_date_pre corpusSame 0 0 = 1 := by
  have hk : dateKernel corpusSame 0 0 = some 1 := by
    unfold dateKernel
    rw [show get_temporal_range (getRec corpusSame 0) = some (1900, 1900)
      from rfl]
    norm_num [calculate_temporal_distance, bandwidth, Real.exp_zero]
  exact (fillMat_some (le_refl 0) (by norm_num [corpusSame]) hk).1

theorem sdSame_11 : S_date_pre corpusSame 1 1 = 1 := by
  have hk : dateKernel corpusSame 1 1 = some 1 := by
    unfold dateKernel
    rw [show get_temporal_range (getRec corpusSame 1) = some (1900, 1900)
      from rfl]
    norm_num [calculate_temporal_distance, bandwidth, Real.exp_zero]
  exact (fillMat_some (le_refl 1) (by norm_num [corpusSame]) hk).1

theorem sdSame_01 : S_date_pre corpusSame 0 1 = 1 ∧
    S_date_pre corpusSame 1 0 = 1 := by
  have hk : dateKernel corpusSame 0 1 = some 1 := by
    unfold dateKernel
    rw [show get_temporal_range (getRec corpusSame 0) = some (1900, 1900)
      from rfl,
      show get_temporal_range (getRec corpusSame 1) = some (1900, 1900)
      from rfl]
    norm_num [calculate_temporal_distance, bandwidth, Real.exp_zero]
  exact fillMat_some (by norm_num) (by norm_num [corpusSame]) hk

/-- C2 fails as stated: on a two-record corpus with identical years every
entry of the pre-normalisation temporal matrix is 1, so the maximum
observed over the entire matrix is 1 — yet the scaler (whose guard `N > 1`
is passed) maps it to 0, not 1, because each constant column collapses
to 0. -/
theorem C2_counterexample :
    S_date_pre corpusSame 0 0 = 1 ∧ S_date_pre corpusSame 0 1 = 1 ∧
    S_date_pre corpusSame 1 0 = 1 ∧ S_date_pre corpusSame 1 1 = 1 ∧
    corpusSame.length = 2 ∧ S_date corpusSame 0 1 = 0 := by
  refine ⟨sdSame_00, sdSame_01.1, sdSame_01.2, sdSame_11, rfl, ?_⟩
  have hmin : colMin (S_date_pre corpusSame) 2 1 = 1 := by
    unfold colMin
    rw [show List.range 2 = [0, 1] from rfl]
    simp only [List.foldl_cons, List.foldl_nil]
    rw [sdSame_01.1, sdSame_11, min_self, min_self]
  unfold S_date normalizeStep minmaxCols
  rw [show corpusSame.length = 2 from rfl, if_pos (show (1:ℕ) < 2 by norm_num)]
  dsimp only
  rw [sdSame_01.1, hmin, sub_self, zero_mul]
